import Mathlib

/-!
# Verification of the CQHTTP bot library (`cqhttp/__init__.py`)

A shallow embedding of the library's core: the dynamic API client proxy
(`_ApiClient`), outbound response decoding (`_error` / `_ApiClient.__call__`),
inbound signature verification, the handler registry (`CQHttp._deco_maker`),
the dispatch engine (`CQHttp._handle`), and the context-based send helper
(`CQHttp.send`).

Modelling conventions:
* Python values appearing in JSON payloads are modelled by `PyVal`
  (`None`, booleans, integers, strings, lists, dicts with string keys;
  floats are not modelled — none occur in the library's own logic).
* Python dicts are association lists; reading takes the first matching
  entry and writing replaces the first matching entry (or appends),
  which coincides with dict semantics whenever keys are unique.
* Python truthiness is `pyTruthy`; `None`-or-string optional values use
  `Option String` with `""`/`none` both falsy, as in the source.
* Raised exceptions / `abort(code)` are modelled with `Except`.
* Machine-level hashing (`hmac.new(..., 'sha1')`) is implemented
  bit-faithfully on `Nat` with explicit reduction modulo `2 ^ 32`.
-/

/-- Model of the Python/JSON values the library manipulates. -/
inductive PyVal where
  | none
  | bool (b : Bool)
  | int (n : Int)
  | str (s : String)
  | list (xs : List PyVal)
  | dict (entries : List (String × PyVal))

/-- Python `dict.get` on an association list: first matching entry wins. -/
def dictGet {κ α : Type} [DecidableEq κ] : List (κ × α) → κ → Option α
  | [], _ => Option.none
  | (k', v) :: rest, k => if k' = k then some v else dictGet rest k

/-- Python `d[k] = v` on an association list: replace the first entry with
key `k`, or append a new entry when `k` is absent. -/
def dictSet {κ α : Type} [DecidableEq κ] : List (κ × α) → κ → α → List (κ × α)
  | [], k, v => [(k, v)]
  | (k', v') :: rest, k, v =>
      if k' = k then (k, v) :: rest else (k', v') :: dictSet rest k v

/-- Python truthiness for the modelled values. -/
def pyTruthy : PyVal → Bool
  | .none => false
  | .bool b => b
  | .int n => n != 0
  | .str s => s != ""
  | .list xs => !xs.isEmpty
  | .dict d => !d.isEmpty

/-- Python `pat in s` on strings: the substring test. -/
def strContainsChars (pat : List Char) : List Char → Bool
  | [] => pat.isEmpty
  | c :: rest => pat.isPrefixOf (c :: rest) || strContainsChars pat rest

/-! ## `_ApiClient`: URL building (`__init__`, `__getattr__`) -/

/-- `str.rstrip('/')` on a character list: drop all trailing `'/'`. -/
def rstripSlashChars (l : List Char) : List Char :=
  (l.reverse.dropWhile (· == '/')).reverse

/-- Python `api_root.rstrip('/')`. -/
def rstripSlash (s : String) : String :=
  String.mk (rstripSlashChars s.data)

/-- Model of an `_ApiClient` instance: `_url` (`None` or a string) and
`_access_token`. -/
structure ApiClient where
  url : Option String
  access_token : Option String
deriving DecidableEq

/-- `_ApiClient.__init__`: `self._url = api_root.rstrip('/') if api_root
else None` (so both `None` and the empty string give an unset URL). -/
def initClient (api_root : Option String) (token : Option String) : ApiClient :=
  { url :=
      match api_root with
      | some s => if s ≠ "" then some (rstripSlash s) else Option.none
      | Option.none => Option.none
    access_token := token }

/-- `_ApiClient.__getattr__`: when `self._url` is truthy, build a child
client through `__init__` with `self._url + '/' + item`; otherwise the
method falls off the end and returns `None`. -/
def getattrClient (c : ApiClient) (item : String) : Option ApiClient :=
  match c.url with
  | some u =>
      if u ≠ "" then some (initClient (some (u ++ "/" ++ item)) c.access_token)
      else Option.none
  | Option.none => Option.none

/-- A chain of attribute accesses `c.a₁.a₂…aₙ`; `Option.none` when some hop
returned `None` (further attribute access on `None` would raise, so the
chain is modelled as failed). -/
def chainClient : ApiClient → List String → Option ApiClient
  | c, [] => some c
  | c, a :: as' =>
      match getattrClient c a with
      | some c' => chainClient c' as'
      | Option.none => Option.none

/-- The URL path obtained by appending `"/" ++ a` for each chained name. -/
def joinPath (u : String) (as' : List String) : String :=
  as'.foldl (fun acc a => acc ++ "/" ++ a) u

/-- The outbound HTTP POST issued by `_ApiClient.__call__`:
`requests.post(self._url, json=kwargs, headers=headers)` with an
`Authorization` header exactly when the access token is truthy. -/
structure ApiRequest where
  url : Option String
  body : List (String × PyVal)
  headers : List (String × String)

/-- Request construction in `_ApiClient.__call__`. -/
def callRequest (c : ApiClient) (kwargs : List (String × PyVal)) : ApiRequest :=
  { url := c.url
    body := kwargs
    headers :=
      match c.access_token with
      | some t => if t ≠ "" then [("Authorization", "Token " ++ t)] else []
      | Option.none => [] }

/-! ## HMAC-SHA1 (model of `hmac.new(sec, body, 'sha1').hexdigest()`)

Bytes are `Nat` below 256, 32-bit words are `Nat` reduced modulo `2 ^ 32`. -/

/-- Reduce to a 32-bit word. -/
def w32 (n : Nat) : Nat := n % 4294967296

/-- 32-bit left rotation. -/
def rotl32 (k x : Nat) : Nat := w32 (x <<< k) ||| (x >>> (32 - k))

/-- UTF-8 bytes of a string (Python `s.encode('utf-8')`). -/
def strBytes (s : String) : List Nat :=
  s.data.flatMap (fun c => (String.utf8EncodeChar c).map (·.toNat))

/-- Big-endian assembly of 4-byte groups into 32-bit words. -/
def beWords : List Nat → List Nat
  | b0 :: b1 :: b2 :: b3 :: rest =>
      (b0 * 16777216 + b1 * 65536 + b2 * 256 + b3) :: beWords rest
  | _ => []

/-- Big-endian byte decomposition of a list of 32-bit words. -/
def wordsToBytes : List Nat → List Nat
  | [] => []
  | w :: ws => (w >>> 24) % 256 :: (w >>> 16) % 256 :: (w >>> 8) % 256 :: w % 256 :: wordsToBytes ws

/-- SHA-1 message padding: a `0x80` byte, zeros up to 56 mod 64, then the
original bit length as a 64-bit big-endian integer. -/
def sha1Pad (msg : List Nat) : List Nat :=
  let len := msg.length
  let zeros := List.replicate ((119 - len % 64) % 64) 0
  let bits := len * 8
  msg ++ [128] ++ zeros ++
    [(bits >>> 56) % 256, (bits >>> 48) % 256, (bits >>> 40) % 256, (bits >>> 32) % 256,
     (bits >>> 24) % 256, (bits >>> 16) % 256, (bits >>> 8) % 256, bits % 256]

/-- Split into 64-byte blocks (`fuel` bounds the recursion; callers pass
the list length). -/
def chunks64 : Nat → List Nat → List (List Nat)
  | 0, _ => []
  | _, [] => []
  | fuel + 1, l => l.take 64 :: chunks64 fuel (l.drop 64)

/-- Extend the 16 message-schedule words to 80. -/
def sha1Extend : Nat → Array Nat → Array Nat
  | 0, ws => ws
  | n + 1, ws =>
      let i := ws.size
      let w := rotl32 1 ((((ws.getD (i - 3) 0).xor (ws.getD (i - 8) 0)).xor
        (ws.getD (i - 14) 0)).xor (ws.getD (i - 16) 0))
      sha1Extend n (ws.push w)

/-- The SHA-1 running state: five 32-bit words. -/
structure Sha1State where
  h0 : Nat
  h1 : Nat
  h2 : Nat
  h3 : Nat
  h4 : Nat

/-- One SHA-1 compression round. -/
def sha1Round (ws : Array Nat) (st : Sha1State) (i : Nat) : Sha1State :=
  let a := st.h0; let b := st.h1; let c := st.h2; let d := st.h3; let e := st.h4
  let f :=
    if i < 20 then (b &&& c) ||| ((b.xor 4294967295) &&& d)
    else if i < 40 then (b.xor c).xor d
    else if i < 60 then (b &&& c) ||| (b &&& d) ||| (c &&& d)
    else (b.xor c).xor d
  let k :=
    if i < 20 then 1518500249
    else if i < 40 then 1859775393
    else if i < 60 then 2400959708
    else 3395469782
  let temp := w32 (rotl32 5 a + f + e + k + ws.getD i 0)
  ⟨temp, a, rotl32 30 b, c, d⟩

/-- Process one 64-byte block. -/
def sha1Block (st : Sha1State) (block : List Nat) : Sha1State :=
  let ws := sha1Extend 64 (Array.mk (beWords block))
  let r := (List.range 80).foldl (sha1Round ws) st
  ⟨w32 (st.h0 + r.h0), w32 (st.h1 + r.h1), w32 (st.h2 + r.h2),
   w32 (st.h3 + r.h3), w32 (st.h4 + r.h4)⟩

/-- SHA-1 digest (20 bytes) of a byte list. -/
def sha1 (msg : List Nat) : List Nat :=
  let padded := sha1Pad msg
  let init : Sha1State := ⟨1732584193, 4023233417, 2562383102, 271733878, 3285377520⟩
  let fin := (chunks64 padded.length padded).foldl sha1Block init
  wordsToBytes [fin.h0, fin.h1, fin.h2, fin.h3, fin.h4]

/-- HMAC-SHA1 (RFC 2104) digest of `msg` keyed by `key`, both byte lists. -/
def hmacSha1 (key msg : List Nat) : List Nat :=
  let k0 := if key.length > 64 then sha1 key else key
  let k1 := k0 ++ List.replicate (64 - k0.length) 0
  let ipad := k1.map (·.xor 54)
  let opad := k1.map (·.xor 92)
  sha1 (opad ++ sha1 (ipad ++ msg))

/-- Two lowercase hex characters of a byte (`Nat.digitChar` yields
`0`-`9` and lowercase `a`-`f`, as Python's `hexdigest` does). -/
def hexByte (b : Nat) : List Char :=
  [Nat.digitChar (b / 16 % 16), Nat.digitChar (b % 16)]

/-- `hexdigest()`: lowercase hex string of a byte list. -/
def hexOfBytes (bs : List Nat) : String :=
  String.mk (bs.flatMap hexByte)

/-- `'sha1=' + hmac.new(key, msg, 'sha1').hexdigest()` without the prefix. -/
def hmacSha1Hex (key msg : List Nat) : String :=
  hexOfBytes (hmacSha1 key msg)

/-! ## Outbound response decoding (`_error`, tail of `_ApiClient.__call__`) -/

/-- The exception hierarchy: `Error(status_code, retcode)` and its subclass
`Error102` (which fixes `status_code = 200`, `retcode = 102`). The retcode
is the raw value of `data.get('retcode')` (`Option.none` models Python
`None`). -/
inductive CQError where
  | err (status_code : Nat) (retcode : Option PyVal)
  | err102

/-- The module-level factory `_error(status_code, retcode=None)`:
`Error102()` exactly when `status_code == 200 and retcode == 102` (a
Python `==` with the int 102 holds exactly for the integer value 102
among the modelled values). -/
def mkError (status_code : Nat) (retcode : Option PyVal) : CQError :=
  match retcode with
  | some (.int n) =>
      if status_code = 200 ∧ n = 102 then .err102 else .err status_code retcode
  | _ => .err status_code retcode

/-- `requests.Response.ok`: true when `raise_for_status()` would not raise,
i.e. the status code is below 400. -/
def respOk (status_code : Nat) : Bool := status_code < 400

/-- Response handling in `_ApiClient.__call__`: on a successful HTTP status,
a JSON body whose `status` field is `'failed'` raises `_error(status,
retcode)`, otherwise the body's `data` field is returned; on a
non-successful HTTP status, `_error(status)` is raised. -/
def handleResponse (status_code : Nat) (body : List (String × PyVal)) :
    Except CQError PyVal :=
  if respOk status_code then
    let failed : Bool :=
      match dictGet body "status" with
      | some (.str s) => s == "failed"
      | _ => false
    if failed then .error (mkError status_code (dictGet body "retcode"))
    else .ok ((dictGet body "data").getD .none)
  else .error (mkError status_code Option.none)

/-! ## Signature verification (head of `CQHttp._handle`) -/

/-- Errors raised while handling an inbound request: `abort(code)` from
bottle, or a `TypeError` from `'pass' in result` on a non-container. -/
inductive HErr where
  | abort (code : Nat)
  | typeError
deriving DecidableEq

/-- The signature-checking block of `CQHttp._handle`: skipped when the
secret is falsy (`None` or `""`); `abort(401)` when the `X-Signature`
header is absent; `abort(403)` unless the header equals `'sha1=' +
hmac.new(secret, raw_body, 'sha1').hexdigest()`. -/
def checkSignature (secret : Option String) (xSignature : Option String)
    (rawBody : List Nat) : Except HErr Unit :=
  match secret with
  | some s =>
      if s ≠ "" then
        match xSignature with
        | Option.none => .error (.abort 401)
        | some v =>
            if v ≠ "sha1=" ++ hmacSha1Hex (strBytes s) rawBody then
              .error (.abort 403)
            else .ok ()
      else .ok ()
  | Option.none => .ok ()

/-! ## Handler registry (`CQHttp.__init__`, `CQHttp._deco_maker`) -/

/-- A registered handler: called with the whole `request.json` payload. -/
def Handler : Type := PyVal → PyVal

/-- The mutable registry state: `self._groups` and `self._handlers`
(group ↦ post_type ↦ match-key ↦ handler). The defaultdicts' on-demand
insertion of empty sub-dicts is modelled by reading with default `[]`. -/
structure BotState where
  groups : List Int
  handlers : List (Int × List (String × List (String × Handler)))

/-- The registry state after `CQHttp.__init__`. -/
def initState : BotState := { groups := [], handlers := [] }

/-- The `(group, post_type)` bucket `self._handlers[group][post_type]`. -/
def bucketOf (st : BotState) (group : Int) (post_type : String) :
    List (String × Handler) :=
  (dictGet ((dictGet st.handlers group).getD []) post_type).getD []

/-- The key-storing step of the decorator body: `if types: for t in types:
bucket[t] = wrapper` / `else: bucket['*'] = wrapper`. -/
def applyTypes (types : List String) (h : Handler) (bucket : List (String × Handler)) :
    List (String × Handler) :=
  if types ≠ [] then types.foldl (fun b t => dictSet b t h) bucket
  else dictSet bucket "*" h

/-- The decorator body produced by `CQHttp._deco_maker(post_type)`: ensure
the group is known (append to `_groups`, re-sort, give it a fresh handler
map), then store the handler under every given match key, or under the
wildcard key `'*'` when no keys were given. -/
def register (st : BotState) (post_type : String) (types : List String)
    (group : Int) (h : Handler) : BotState :=
  let st' :=
    if group ∈ st.groups then st
    else
      { groups := (st.groups ++ [group]).insertionSort (· ≤ ·)
        handlers := dictSet st.handlers group [] }
  let gm := (dictGet st'.handlers group).getD []
  let bucket := (dictGet gm post_type).getD []
  let bucket' := applyTypes types h bucket
  { st' with handlers := dictSet st'.handlers group (dictSet gm post_type bucket') }

/-- A sequence of decorator registrations applied in order. -/
structure RegEvent where
  post_type : String
  types : List String
  group : Int
  handler : Handler

/-- Fold a list of registrations over a state. -/
def applyRegs : BotState → List RegEvent → BotState
  | st, [] => st
  | st, e :: es => applyRegs (register st e.post_type e.types e.group e.handler) es

/-! ## Dispatch engine (tail of `CQHttp._handle`) -/

/-- Exact lookup `self._handlers[group][post_type].get(handler_key)`:
the payload's discriminator value is an arbitrary JSON value; it can only
match the (string) registration keys when it is itself a string. -/
def exactLookup (bucket : List (String × Handler)) (key : PyVal) : Option Handler :=
  match key with
  | .str s => dictGet bucket s
  | _ => Option.none

/-- Handler selection inside the dispatch loop: exact key first, then the
wildcard `'*'` (`if not handler: handler = ….get('*')`; handlers are
function objects, hence always truthy). -/
def lookupHandler (st : BotState) (group : Int) (post_type : String)
    (key : PyVal) : Option Handler :=
  let bucket := bucketOf st group post_type
  match exactLookup bucket key with
  | some h => some h
  | Option.none => dictGet bucket "*"

/-- Python `'pass' in result`: key membership for a dict, substring test
for a string, element membership for a list, and a `TypeError`
(`Option.none`) for non-container values such as `None`. -/
def containsPass : PyVal → Option Bool
  | .dict d => some (dictGet d "pass").isSome
  | .str s => some (strContainsChars "pass".data s.data)
  | .list xs =>
      some (xs.any fun v => match v with | .str s => s == "pass" | _ => false)
  | _ => Option.none

/-- The dispatch loop of `CQHttp._handle`: walk the given groups in list
order; in each group select at most one handler; a selected handler's
result continues to the next group when it contains `'pass'`, is returned
as the final response otherwise; return `''` when the groups are
exhausted. -/
def dispatchLoop (st : BotState) (post_type : String) (key payload : PyVal) :
    List Int → Except HErr PyVal
  | [] => .ok (.str "")
  | g :: gs =>
      match lookupHandler st g post_type key with
      | Option.none => dispatchLoop st post_type key payload gs
      | some h =>
          match containsPass (h payload) with
          | Option.none => .error .typeError
          | some true => dispatchLoop st post_type key payload gs
          | some false => .ok (h payload)

/-- `for group in self._groups: …` — dispatch walks `self._groups`. -/
def dispatch (st : BotState) (post_type : String) (key payload : PyVal) :
    Except HErr PyVal :=
  dispatchLoop st post_type key payload st.groups

/-- The discriminator field for each post type, from the pair table in
`CQHttp._handle` (`message→message_type`, `event→event`,
`request→request_type`). -/
def discriminatorField (post_type : String) : String :=
  if post_type = "message" then "message_type"
  else if post_type = "event" then "event"
  else "request_type"

/-- The whole of `CQHttp._handle`: signature check, `post_type`
validation, discriminator extraction (`abort(400)` when absent or falsy),
then the dispatch loop. -/
def handle (st : BotState) (secret : Option String) (xSignature : Option String)
    (rawBody : List Nat) (json : List (String × PyVal)) : Except HErr PyVal := do
  let _ ← checkSignature secret xSignature rawBody
  let post_type := (dictGet json "post_type").getD .none
  match post_type with
  | .str pt =>
      if pt = "message" ∨ pt = "event" ∨ pt = "request" then
        let key := (dictGet json (discriminatorField pt)).getD .none
        if pyTruthy key then dispatch st pt key (.dict json)
        else .error (.abort 400)
      else .error (.abort 400)
  | _ => .error (.abort 400)

/-! ## Context-based send helper (`CQHttp.send`) -/

/-- The outbound call selected by `CQHttp.send`. -/
inductive SendCall where
  | group_msg (id : PyVal)
  | discuss_msg (id : PyVal)
  | private_msg (id : PyVal)

/-- `CQHttp.send`: truthiness-based precedence over `group_id`,
`discuss_id`, `user_id`; falls through to an implicit `None` (no call)
when all three are falsy or absent. -/
def send (context : List (String × PyVal)) : Option SendCall :=
  let get (k : String) : PyVal := (dictGet context k).getD .none
  if pyTruthy (get "group_id") then some (.group_msg (get "group_id"))
  else if pyTruthy (get "discuss_id") then some (.discuss_msg (get "discuss_id"))
  else if pyTruthy (get "user_id") then some (.private_msg (get "user_id"))
  else Option.none

/-! ## Auxiliary predicates used by the theorems -/

/-- Number of entries of an association list carrying a given key. -/
def countKey {κ α : Type} [DecidableEq κ] (d : List (κ × α)) (k : κ) : Nat :=
  d.countP (fun p => decide (p.1 = k))

/-- Group `g` does not terminate dispatch for the given payload: either no
handler is selected in it, or the selected handler's result contains the
`'pass'` marker. -/
def passesGroup (st : BotState) (post_type : String) (key payload : PyVal)
    (g : Int) : Prop :=
  ∀ h, lookupHandler st g post_type key = some h →
    containsPass (h payload) = some true

/-- Concrete registry used by counterexamples and witnesses: one group
(number 0) whose `message`/`private` handler returns Python `None`. -/
def noneHandlerState : BotState :=
  register initState "message" ["private"] 0 (fun _ => .none)

/-- Concrete registry: one group (number 0) whose `message`/`private`
handler returns the empty dict. -/
def emptyDictHandlerState : BotState :=
  register initState "message" ["private"] 0 (fun _ => .dict [])

/-- Concrete registry: group 0's `message`/`private` handler pass-marks
its result, group 5's `message` wildcard handler replies. -/
def passThenReplyState : BotState :=
  register
    (register initState "message" ["private"] 0 (fun _ => .dict [("pass", .none)]))
    "message" [] 5 (fun _ => .dict [("reply", .str "ok")])

/-! ## Association-list lemmas -/

theorem dictGet_dictSet_same {κ α : Type} [DecidableEq κ]
    (d : List (κ × α)) (k : κ) (v : α) : dictGet (dictSet d k v) k = some v := by
  induction d with
  | nil => simp [dictSet, dictGet]
  | cons p rest ih =>
      obtain ⟨k', v'⟩ := p
      by_cases h : k' = k
      · subst h; simp [dictSet, dictGet]
      · simp [dictSet, dictGet, h, ih]

theorem dictGet_dictSet_ne {κ α : Type} [DecidableEq κ]
    (d : List (κ × α)) (k k' : κ) (v : α) (h : k' ≠ k) :
    dictGet (dictSet d k v) k' = dictGet d k' := by
  have hne : k ≠ k' := fun hh => h hh.symm
  induction d with
  | nil => simp [dictSet, dictGet, hne]
  | cons p rest ih =>
      obtain ⟨a, b⟩ := p
      by_cases ha : a = k
      · subst ha
        simp [dictSet, dictGet, hne]
      · simp only [dictSet, if_neg ha, dictGet]
        by_cases ha' : a = k'
        · simp [ha']
        · simp [ha', ih]

theorem dictGet_foldl_dictSet {κ α : Type} [DecidableEq κ]
    (ts : List κ) (b0 : List (κ × α)) (h : α) (t : κ) :
    dictGet (ts.foldl (fun b t' => dictSet b t' h) b0) t
      = if t ∈ ts then some h else dictGet b0 t := by
  induction ts generalizing b0 with
  | nil => simp
  | cons t' rest ih =>
      simp only [List.foldl_cons]
      rw [ih]
      by_cases hmem : t ∈ rest
      · simp [hmem]
      · by_cases heq : t = t'
        · subst heq; simp [hmem, dictGet_dictSet_same]
        · simp [hmem, heq, dictGet_dictSet_ne _ _ _ _ heq]

theorem countKey_dictSet_self {κ α : Type} [DecidableEq κ]
    (d : List (κ × α)) (k : κ) (v : α) :
    countKey (dictSet d k v) k = if countKey d k = 0 then 1 else countKey d k := by
  induction d with
  | nil => simp [dictSet, countKey]
  | cons p rest ih =>
      obtain ⟨a, b⟩ := p
      by_cases ha : a = k
      · subst ha
        simp [dictSet, countKey, List.countP_cons]
      · simp only [dictSet, if_neg ha]
        simp only [countKey, List.countP_cons] at ih ⊢
        rw [decide_eq_false ha]
        simp [ih]

theorem countKey_dictSet_ne {κ α : Type} [DecidableEq κ]
    (d : List (κ × α)) (k k' : κ) (v : α) (h : k' ≠ k) :
    countKey (dictSet d k v) k' = countKey d k' := by
  have hne : k ≠ k' := fun hh => h hh.symm
  induction d with
  | nil => simp [dictSet, countKey, hne]
  | cons p rest ih =>
      obtain ⟨a, b⟩ := p
      by_cases ha : a = k
      · subst ha
        simp [dictSet, countKey, List.countP_cons, hne]
      · simp only [dictSet, if_neg ha]
        simp only [countKey, List.countP_cons] at ih ⊢
        simp [ih]

theorem countKey_foldl_dictSet {κ α : Type} [DecidableEq κ]
    (ts : List κ) (b0 : List (κ × α)) (h : α) (t : κ)
    (hle : countKey b0 t ≤ 1) :
    countKey (ts.foldl (fun b t' => dictSet b t' h) b0) t
      = if t ∈ ts then 1 else countKey b0 t := by
  induction ts generalizing b0 with
  | nil => simp
  | cons t' rest ih =>
      simp only [List.foldl_cons]
      by_cases heq : t = t'
      · subst heq
        have h1 : countKey (dictSet b0 t h) t = 1 := by
          rw [countKey_dictSet_self]
          split <;> omega
        rw [ih _ h1.le, h1]
        simp
      · rw [ih _ (by rwa [countKey_dictSet_ne _ _ _ _ heq])]
        rw [countKey_dictSet_ne _ _ _ _ heq]
        simp [List.mem_cons, heq]

/-! ## Registry lemmas -/

theorem groups_register (st : BotState) (pt : String) (ts : List String)
    (g : Int) (h : Handler) :
    (register st pt ts g h).groups
      = if g ∈ st.groups then st.groups
        else (st.groups ++ [g]).insertionSort (· ≤ ·) := by
  unfold register
  by_cases hg : g ∈ st.groups <;> simp [hg]

theorem mem_groups_register (st : BotState) (pt : String) (ts : List String)
    (g : Int) (h : Handler) : g ∈ (register st pt ts g h).groups := by
  rw [groups_register]
  by_cases hg : g ∈ st.groups
  · simp [hg]
  · simp [hg, List.mem_insertionSort]

theorem sorted_groups_register (st : BotState) (pt : String) (ts : List String)
    (g : Int) (h : Handler) (hs : st.groups.Sorted (· ≤ ·)) :
    (register st pt ts g h).groups.Sorted (· ≤ ·) := by
  rw [groups_register]
  by_cases hg : g ∈ st.groups
  · simpa [hg]
  · simpa [hg] using List.sorted_insertionSort (· ≤ ·) (st.groups ++ [g])

theorem sorted_groups_applyRegs (regs : List RegEvent) (st : BotState)
    (hs : st.groups.Sorted (· ≤ ·)) :
    (applyRegs st regs).groups.Sorted (· ≤ ·) := by
  induction regs generalizing st with
  | nil => simpa [applyRegs]
  | cons e es ih =>
      exact ih _ (sorted_groups_register _ _ _ _ _ hs)

theorem bucketOf_register_same (st : BotState) (pt : String) (ts : List String)
    (g : Int) (h : Handler) :
    bucketOf (register st pt ts g h) g pt
      = applyTypes ts h (if g ∈ st.groups then bucketOf st g pt else []) := by
  unfold register bucketOf
  by_cases hg : g ∈ st.groups <;>
    simp [hg, dictGet_dictSet_same, dictGet]

/-! ## Dispatch-loop lemmas -/

theorem dispatchLoop_cons (st : BotState) (pt : String) (key payload : PyVal)
    (g : Int) (gs : List Int) :
    dispatchLoop st pt key payload (g :: gs)
      = match lookupHandler st g pt key with
        | Option.none => dispatchLoop st pt key payload gs
        | some h =>
            match containsPass (h payload) with
            | Option.none => .error .typeError
            | some true => dispatchLoop st pt key payload gs
            | some false => .ok (h payload) := rfl

theorem dispatchLoop_all_pass (st : BotState) (pt : String) (key payload : PyVal)
    (gs : List Int) (hp : ∀ g ∈ gs, passesGroup st pt key payload g) :
    dispatchLoop st pt key payload gs = .ok (.str "") := by
  induction gs with
  | nil => rfl
  | cons g rest ih =>
      have hg := hp g (List.mem_cons_self g rest)
      have ih' := ih fun g' hm => hp g' (List.mem_cons_of_mem _ hm)
      cases hsel : lookupHandler st g pt key with
      | none => simp only [dispatchLoop_cons, hsel, ih']
      | some h => simp only [dispatchLoop_cons, hsel, hg h hsel, ih']

theorem dispatchLoop_stops (st : BotState) (pt : String) (key payload : PyVal)
    (gs₁ : List Int) (g : Int) (gs₂ : List Int) (h : Handler)
    (hp : ∀ g' ∈ gs₁, passesGroup st pt key payload g')
    (hsel : lookupHandler st g pt key = some h)
    (hstop : containsPass (h payload) = some false) :
    dispatchLoop st pt key payload (gs₁ ++ g :: gs₂) = .ok (h payload) := by
  induction gs₁ with
  | nil =>
      simp only [List.nil_append, dispatchLoop_cons, hsel, hstop]
  | cons g' rest ih =>
      have hg := hp g' (List.mem_cons_self g' rest)
      have ih' := ih fun x hm => hp x (List.mem_cons_of_mem _ hm)
      rw [List.cons_append]
      cases hsel' : lookupHandler st g' pt key with
      | none => simp only [dispatchLoop_cons, hsel', ih']
      | some h' => simp only [dispatchLoop_cons, hsel', hg h' hsel', ih']

theorem dispatchLoop_raises (st : BotState) (pt : String) (key payload : PyVal)
    (g : Int) (gs : List Int) (h : Handler)
    (hsel : lookupHandler st g pt key = some h)
    (hnone : containsPass (h payload) = Option.none) :
    dispatchLoop st pt key payload (g :: gs) = .error .typeError := by
  simp only [dispatchLoop_cons, hsel, hnone]

/-! ## String lemmas for `rstrip('/')` -/

theorem string_ne_empty_iff (s : String) : s ≠ "" ↔ s.data ≠ [] := by
  constructor
  · intro h hd
    exact h (String.ext hd)
  · intro h hs
    exact h (hs ▸ rfl)

theorem rstripSlashChars_concat (l : List Char) (c : Char) (hc : c ≠ '/') :
    rstripSlashChars (l ++ [c]) = l ++ [c] := by
  unfold rstripSlashChars
  rw [List.reverse_append]
  simp only [List.reverse_cons, List.reverse_nil, List.nil_append, List.singleton_append,
    List.dropWhile_cons]
  rw [show (c == '/') = false from by simpa using hc]
  simp

theorem dropWhile_slash_replicate (n : Nat) (x : List Char) :
    List.dropWhile (· == '/') (List.replicate n '/' ++ x)
      = List.dropWhile (· == '/') x := by
  induction n with
  | zero => simp
  | succ m ih => simp [List.replicate_succ, List.dropWhile_cons, ih]

theorem rstripSlashChars_append_replicate (l : List Char) (n : Nat) :
    rstripSlashChars (l ++ List.replicate n '/') = rstripSlashChars l := by
  unfold rstripSlashChars
  rw [List.reverse_append, List.reverse_replicate, dropWhile_slash_replicate]

theorem rstripSlash_append_nonslash (u a : String) (ha : a ≠ "")
    (hslash : '/' ∉ a.data) : rstripSlash (u ++ "/" ++ a) = u ++ "/" ++ a := by
  rcases List.eq_nil_or_concat a.data with hnil | ⟨L, c, hconcat⟩
  · exact absurd (String.ext hnil) ha
  · have hc : c ≠ '/' := by
      intro hcs
      apply hslash
      rw [hconcat, hcs]
      simp
    have hdata : (u ++ "/" ++ a).data = (u.data ++ '/' :: L) ++ [c] := by
      simp [String.data_append, hconcat, List.concat_eq_append]
    apply String.ext
    show rstripSlashChars (u ++ "/" ++ a).data = _
    rw [hdata, rstripSlashChars_concat _ _ hc]

/-! ## Claim C4: outbound remote-error decoding -/

/-- C4, counterexample: the HTTP status 201 is in the success range, the
body has `status: 'failed'` and `retcode: 102`, yet the code raises the
generic `Error(201, 102)`, not the named `Error102` subtype, because
`_error` tests `status_code == 200`, not membership in the success
range. -/
theorem C4_counterexample :
    handleResponse 201 [("status", .str "failed"), ("retcode", .int 102)]
      = .error (.err 201 (some (.int 102)))
  ∧ handleResponse 201 [("status", .str "failed"), ("retcode", .int 102)]
      ≠ .error .err102 := by
  constructor
  · rfl
  · intro h
    rw [show handleResponse 201 [("status", .str "failed"), ("retcode", .int 102)]
          = .error (.err 201 (some (.int 102))) from rfl] at h
    injection h with h'
    exact CQError.noConfusion h'

theorem mkError_eq_generic (status : Nat) (rc : Option PyVal)
    (h : status = 200 → rc ≠ some (.int 102)) :
    mkError status rc = .err status rc := by
  match rc with
  | Option.none => rfl
  | some .none => rfl
  | some (.bool _) => rfl
  | some (.str _) => rfl
  | some (.list _) => rfl
  | some (.dict _) => rfl
  | some (.int n) =>
      show (if status = 200 ∧ n = 102 then CQError.err102
            else CQError.err status (some (.int n))) = _
      rw [if_neg]
      rintro ⟨h200, h102⟩
      exact h h200 (by rw [h102])

/-- C4 (amended): for an outbound call whose HTTP status is in the success
range and whose body has `status: 'failed'`, the named `Error102` subtype
is raised only when the HTTP status is exactly 200 and the retcode equals
102; every other such (status, retcode) raises the generic error carrying
the HTTP status and that retcode; a status outside the success range
raises the generic error carrying only the status (retcode `None`). -/
theorem C4_remote_error_decoding :
    (∀ body : List (String × PyVal),
        dictGet body "status" = some (.str "failed") →
        dictGet body "retcode" = some (.int 102) →
        handleResponse 200 body = .error .err102)
  ∧ (∀ (status : Nat) (body : List (String × PyVal)) (rc : Option PyVal),
        respOk status = true →
        dictGet body "status" = some (.str "failed") →
        dictGet body "retcode" = rc →
        (status = 200 → rc ≠ some (.int 102)) →
        handleResponse status body = .error (.err status rc))
  ∧ (∀ (status : Nat) (body : List (String × PyVal)),
        respOk status = false →
        handleResponse status body = .error (.err status Option.none)) := by
  refine ⟨?_, ?_, ?_⟩
  · intro body hst hrc
    unfold handleResponse
    rw [hst, hrc]
    simp [mkError, respOk]
  · intro status body rc hok hst hrc hne
    have hmk := mkError_eq_generic status rc hne
    unfold handleResponse
    rw [hok, hst, hrc]
    simp [hmk]
  · intro status body hok
    unfold handleResponse
    rw [hok]
    simp [mkError]

/-- C4, witness: concrete evaluations through `C4_remote_error_decoding`:
a 200/`retcode: 102` failure raises `Error102`; a 200/`retcode: 99`
failure raises the generic `Error(200, 99)`; a 404 raises
`Error(404, None)`. -/
theorem C4_witness :
    handleResponse 200 [("status", .str "failed"), ("retcode", .int 102)]
      = .error .err102
  ∧ handleResponse 200 [("status", .str "failed"), ("retcode", .int 99)]
      = .error (.err 200 (some (.int 99)))
  ∧ handleResponse 404 [("status", .str "failed")]
      = .error (.err 404 Option.none) := by
  refine ⟨?_, ?_, ?_⟩
  · exact C4_remote_error_decoding.1 _ rfl rfl
  · refine C4_remote_error_decoding.2.1 200 _ _ rfl rfl rfl ?_
    intro _ hcontra
    injection hcontra with h'
    exact PyVal.noConfusion h' (fun hint => by omega)
  · exact C4_remote_error_decoding.2.2 404 _ rfl

/-! ## Claim C5: context-based send precedence -/

/-- C5, counterexample: the context `{'group_id': 0, 'user_id': 2}`
contains `group_id`, yet `send` routes to the private-send endpoint,
because the code tests `context.get('group_id')` for truthiness, not for
presence, and `0` is falsy. -/
theorem C5_counterexample :
    send [("group_id", .int 0), ("user_id", .int 2)]
      = some (.private_msg (.int 2))
  ∧ send [("group_id", .int 0), ("user_id", .int 2)]
      ≠ some (.group_msg (.int 0)) := by
  constructor
  · rfl
  · intro h
    rw [show send [("group_id", .int 0), ("user_id", .int 2)]
          = some (.private_msg (.int 2)) from rfl] at h
    injection h with h'
    exact SendCall.noConfusion h'

/-- C5 (amended): `send` selects exactly one outbound call by fixed
precedence over *truthy* (present and non-falsy) context values: a truthy
`group_id` routes to group-send; else a truthy `discuss_id` to
discussion-send; else a truthy `user_id` to private-send; when all three
are absent or falsy, no call is made. In particular a context whose
`group_id` and `user_id` are both truthy routes to group-send. -/
theorem C5_send_precedence (context : List (String × PyVal)) :
    (pyTruthy ((dictGet context "group_id").getD .none) = true →
        send context = some (.group_msg ((dictGet context "group_id").getD .none)))
  ∧ (pyTruthy ((dictGet context "group_id").getD .none) = false →
     pyTruthy ((dictGet context "discuss_id").getD .none) = true →
        send context = some (.discuss_msg ((dictGet context "discuss_id").getD .none)))
  ∧ (pyTruthy ((dictGet context "group_id").getD .none) = false →
     pyTruthy ((dictGet context "discuss_id").getD .none) = false →
     pyTruthy ((dictGet context "user_id").getD .none) = true →
        send context = some (.private_msg ((dictGet context "user_id").getD .none)))
  ∧ (pyTruthy ((dictGet context "group_id").getD .none) = false →
     pyTruthy ((dictGet context "discuss_id").getD .none) = false →
     pyTruthy ((dictGet context "user_id").getD .none) = false →
        send context = Option.none) := by
  refine ⟨?_, ?_, ?_, ?_⟩
  · intro h1
    simp [send, h1]
  · intro h1 h2
    simp [send, h1, h2]
  · intro h1 h2 h3
    simp [send, h1, h2, h3]
  · intro h1 h2 h3
    simp [send, h1, h2, h3]

/-- C5, witness: a context with truthy `group_id` and `user_id` routes to
group-send (never private-send), obtained through `C5_send_precedence`. -/
theorem C5_witness :
    send [("group_id", .int 1), ("user_id", .int 2)] = some (.group_msg (.int 1)) :=
  (C5_send_precedence _).1 (by decide)

/-! ## Claim C2: inbound signature verification -/

/-- C2: with a configured (truthy, i.e. non-empty — the code tests
`if self._secret:`) secret, a missing `X-Signature` header aborts with
401; a header differing from `'sha1=' + HMAC-SHA1(secret, raw body)` in
lowercase hex aborts with 403; the exact expected string passes; with no
secret configured, verification is skipped and any or no header passes. -/
theorem C2_signature_verification (s : String) (body : List Nat) (hs : s ≠ "") :
    (checkSignature (some s) Option.none body = .error (.abort 401))
  ∧ (∀ v : String, v ≠ "sha1=" ++ hmacSha1Hex (strBytes s) body →
        checkSignature (some s) (some v) body = .error (.abort 403))
  ∧ (checkSignature (some s) (some ("sha1=" ++ hmacSha1Hex (strBytes s) body)) body
        = .ok ())
  ∧ (∀ v : Option String, checkSignature Option.none v body = .ok ()) := by
  refine ⟨?_, ?_, ?_, ?_⟩
  · simp [checkSignature, hs]
  · intro v hv
    simp [checkSignature, hs, hv]
  · simp [checkSignature, hs]
  · intro v
    simp [checkSignature]

set_option maxRecDepth 1000000

/-- C2, witness: with secret `"abc"` and raw body `b"hello"`, the absent
header yields 401, the wrong header `sha1=deadbeef` yields 403, and the
header carrying the true HMAC-SHA1 digest
(`d373670db3c99ebfa96060e993c340ccf6dd079e`) passes — all through
`C2_signature_verification`. -/
theorem C2_witness :
    checkSignature (some "abc") Option.none (strBytes "hello")
      = .error (.abort 401)
  ∧ checkSignature (some "abc") (some "sha1=deadbeef") (strBytes "hello")
      = .error (.abort 403)
  ∧ checkSignature (some "abc")
      (some "sha1=d373670db3c99ebfa96060e993c340ccf6dd079e") (strBytes "hello")
      = .ok () := by
  have hsig : "sha1=" ++ hmacSha1Hex (strBytes "abc") (strBytes "hello")
      = "sha1=d373670db3c99ebfa96060e993c340ccf6dd079e" := by decide
  have h := C2_signature_verification "abc" (strBytes "hello") (by decide)
  refine ⟨h.1, ?_, ?_⟩
  · exact h.2.1 _ (by rw [hsig]; decide)
  · rw [← hsig]
    exact h.2.2.1

/-! ## Claim C7: registration semantics -/

/-- C7: in every (group, post-category) bucket, registering with an empty
match-key list installs the handler under the wildcard key `'*'`;
registering with a non-empty list installs it under every listed key; a
later registration at the same (group, category, key) silently replaces
the earlier one; and (given the bucket held at most one entry for the
key, as every reachable bucket does) repeated registration leaves exactly
one active entry — the most recent. -/
theorem C7_registration (st : BotState) (pt : String) (g : Int)
    (h h₁ h₂ : Handler) :
    (dictGet (bucketOf (register st pt [] g h) g pt) "*" = some h)
  ∧ (∀ (ts : List String) (t : String), t ∈ ts →
        dictGet (bucketOf (register st pt ts g h) g pt) t = some h)
  ∧ (∀ (ts : List String) (t : String), t ∈ ts →
        dictGet (bucketOf (register (register st pt ts g h₁) pt ts g h₂) g pt) t
          = some h₂)
  ∧ (∀ (ts : List String) (t : String), t ∈ ts →
        countKey (bucketOf st g pt) t ≤ 1 →
        countKey (bucketOf (register (register st pt ts g h₁) pt ts g h₂) g pt) t
          = 1)
  ∧ (countKey (bucketOf st g pt) "*" ≤ 1 →
        countKey (bucketOf (register (register st pt [] g h₁) pt [] g h₂) g pt) "*"
          = 1) := by
  have hb0 : ∀ t : String, countKey (bucketOf st g pt) t ≤ 1 →
      countKey (if g ∈ st.groups then bucketOf st g pt else []) t ≤ 1 := by
    intro t hle
    split
    · exact hle
    · simp [countKey]
  refine ⟨?_, ?_, ?_, ?_, ?_⟩
  · rw [bucketOf_register_same]
    simp only [applyTypes, ne_eq, not_true_eq_false, if_false]
    exact dictGet_dictSet_same _ _ _
  · intro ts t ht
    have hne : ts ≠ [] := List.ne_nil_of_mem ht
    rw [bucketOf_register_same]
    simp only [applyTypes, ne_eq, hne, not_false_eq_true, if_true]
    rw [dictGet_foldl_dictSet]
    simp [ht]
  · intro ts t ht
    have hne : ts ≠ [] := List.ne_nil_of_mem ht
    rw [bucketOf_register_same, if_pos (mem_groups_register st pt ts g h₁)]
    simp only [applyTypes, ne_eq, hne, not_false_eq_true, if_true]
    rw [dictGet_foldl_dictSet]
    simp [ht]
  · intro ts t ht hle
    have hne : ts ≠ [] := List.ne_nil_of_mem ht
    rw [bucketOf_register_same, if_pos (mem_groups_register st pt ts g h₁),
      bucketOf_register_same]
    simp only [applyTypes, ne_eq, hne, not_false_eq_true, if_true]
    rw [countKey_foldl_dictSet _ _ _ _
      (by rw [countKey_foldl_dictSet _ _ _ _ (hb0 t hle)]; simp [ht])]
    simp [ht]
  · intro hle
    rw [bucketOf_register_same, if_pos (mem_groups_register st pt [] g h₁),
      bucketOf_register_same]
    simp only [applyTypes, ne_eq, not_true_eq_false, if_false]
    rw [countKey_dictSet_self, countKey_dictSet_self]
    rcases Nat.le_one_iff_eq_zero_or_eq_one.mp (hb0 "*" hle) with h0 | h0 <;>
      simp [h0]

/-- C7, witness: registering the `message`/`private` handler twice in
group 0 from the initial state leaves the most recent handler as the only
entry for that key, through `C7_registration`. -/
theorem C7_witness :
    dictGet (bucketOf (register (register initState "message" ["private"] 0
          (fun _ => .dict [])) "message" ["private"] 0 (fun p => p))
        0 "message") "private" = some (fun p => p)
  ∧ countKey (bucketOf (register (register initState "message" ["private"] 0
          (fun _ => .dict [])) "message" ["private"] 0 (fun p => p))
        0 "message") "private" = 1 := by
  have h := C7_registration initState "message" 0 (fun p => p)
    (fun _ => .dict []) (fun p => p)
  exact ⟨h.2.2.1 ["private"] "private" (by decide),
    h.2.2.2.1 ["private"] "private" (by decide) (by decide)⟩

/-! ## Claim C8: group ordering invariant -/

/-- C8: after any sequence of registrations from the initial state —
whatever order novel group numbers first appear in — the registry's group
list is sorted in ascending numeric order, and dispatch (`for group in
self._groups`) iterates exactly that list. -/
theorem C8_groups_always_sorted (regs : List RegEvent) :
    ((applyRegs initState regs).groups.Sorted (· ≤ ·))
  ∧ (∀ (pt : String) (key payload : PyVal),
        dispatch (applyRegs initState regs) pt key payload
          = dispatchLoop (applyRegs initState regs) pt key payload
              (applyRegs initState regs).groups) :=
  ⟨sorted_groups_applyRegs regs initState (by simp [initState]),
   fun _ _ _ => rfl⟩

/-! ## Claim C9: the wildcard key is reserved -/

/-- C9: within a (group, post-category) bucket the wildcard registration
key is the single reserved key `'*'`: registering a handler under any
real sub-type key (one different from `'*'`) leaves the bucket's wildcard
entry unchanged, a wildcard registration leaves every real sub-type entry
unchanged, and a wildcard registration writes exactly the `'*'` entry.
(The group is assumed already known, as after any first registration;
a novel group starts from an empty bucket, where there is nothing to
overwrite.) -/
theorem C9_wildcard_reserved (st : BotState) (pt : String) (g : Int)
    (k : String) (h h' : Handler) (hk : k ≠ "*") (hg : g ∈ st.groups) :
    (dictGet (bucketOf (register st pt [k] g h) g pt) "*"
        = dictGet (bucketOf st g pt) "*")
  ∧ (dictGet (bucketOf (register st pt [] g h') g pt) k
        = dictGet (bucketOf st g pt) k)
  ∧ (dictGet (bucketOf (register st pt [] g h') g pt) "*" = some h') := by
  refine ⟨?_, ?_, ?_⟩
  · rw [bucketOf_register_same, if_pos hg]
    simp only [applyTypes, ne_eq, List.cons_ne_self, not_false_eq_true, if_true,
      List.foldl_cons, List.foldl_nil]
    exact dictGet_dictSet_ne _ _ _ _ (Ne.symm hk)
  · rw [bucketOf_register_same, if_pos hg]
    simp only [applyTypes, ne_eq, not_true_eq_false, if_false]
    exact dictGet_dictSet_ne _ _ _ _ hk
  · rw [bucketOf_register_same, if_pos hg]
    simp only [applyTypes, ne_eq, not_true_eq_false, if_false]
    exact dictGet_dictSet_same _ _ _

/-- C9, witness: in a registry whose group 0 already holds a
`message`/`"x"` handler, a wildcard registration leaves the `"x"` entry
unchanged and installs itself exactly under `'*'`, through
`C9_wildcard_reserved`. -/
theorem C9_witness :
    dictGet (bucketOf (register (register initState "message" ["x"] 0 (fun p => p))
        "message" [] 0 (fun _ => .str "wild")) 0 "message") "x"
      = dictGet (bucketOf (register initState "message" ["x"] 0 (fun p => p))
          0 "message") "x"
  ∧ dictGet (bucketOf (register (register initState "message" ["x"] 0 (fun p => p))
        "message" [] 0 (fun _ => .str "wild")) 0 "message") "*"
      = some (fun _ => .str "wild") := by
  have h := C9_wildcard_reserved
    (register initState "message" ["x"] 0 (fun p => p)) "message" 0 "x"
    (fun p => p) (fun _ => .str "wild") (by decide) (by decide)
  exact ⟨h.2.1, h.2.2⟩

/-! ## Claim C1: the dispatch protocol -/

/-- C1: for a validated payload (the dispatch loop is reached with the
post type and discriminator in hand), the engine walks the group list —
ascending by `C8_groups_always_sorted` — selecting in each group the
exact-key handler first, else the wildcard handler, else none; the first
selected handler whose (mapping-like) result does not contain `'pass'`
terminates dispatch with that result, all earlier groups having passed or
matched nothing; when every group passes or matches nothing the response
is the empty string. (Results on which the `'pass'` membership test is
undefined are claim C6's concern.) -/
theorem C1_dispatch_protocol (st : BotState) (pt : String) (key payload : PyVal) :
    (∀ (g : Int) (h : Handler), exactLookup (bucketOf st g pt) key = some h →
        lookupHandler st g pt key = some h)
  ∧ (∀ g : Int, exactLookup (bucketOf st g pt) key = Option.none →
        lookupHandler st g pt key = dictGet (bucketOf st g pt) "*")
  ∧ (∀ (gs₁ : List Int) (g : Int) (gs₂ : List Int) (h : Handler),
        st.groups = gs₁ ++ g :: gs₂ →
        (∀ g' ∈ gs₁, passesGroup st pt key payload g') →
        lookupHandler st g pt key = some h →
        containsPass (h payload) = some false →
        dispatch st pt key payload = .ok (h payload))
  ∧ ((∀ g ∈ st.groups, passesGroup st pt key payload g) →
        dispatch st pt key payload = .ok (.str "")) := by
  refine ⟨?_, ?_, ?_, ?_⟩
  · intro g h hexact
    simp only [lookupHandler, hexact]
  · intro g hexact
    simp only [lookupHandler, hexact]
  · intro gs₁ g gs₂ h hgroups hpass hsel hstop
    unfold dispatch
    rw [hgroups]
    exact dispatchLoop_stops st pt key payload gs₁ g gs₂ h hpass hsel hstop
  · intro hp
    exact dispatchLoop_all_pass st pt key payload st.groups hp

/-- C1, witness: in `passThenReplyState` (groups 0 and 5), the
`message`/`private` payload first runs group 0's handler, whose result is
pass-marked, and then terminates with group 5's wildcard reply, through
`C1_dispatch_protocol`. -/
theorem C1_witness :
    dispatch passThenReplyState "message" (.str "private")
        (.dict [("post_type", .str "message"), ("message_type", .str "private")])
      = .ok (.dict [("reply", .str "ok")]) := by
  refine (C1_dispatch_protocol passThenReplyState "message" (.str "private")
    _).2.2.1 [0] 5 [] (fun _ => .dict [("reply", .str "ok")]) rfl ?_ rfl rfl
  intro g' hg'
  have hg0 : g' = 0 := by simpa using hg'
  subst hg0
  intro h hh
  rw [show lookupHandler passThenReplyState 0 "message" (.str "private")
        = some (fun _ => .dict [("pass", .none)]) from rfl] at hh
  injection hh with heq
  subst heq
  rfl

/-! ## Claim C6: non-mapping handler results -/

/-- C6, counterexample: a handler that returns Python `None` does not
terminate dispatch with an empty response — the membership test
`'pass' in result` raises a `TypeError`, so the request fails instead of
returning. -/
theorem C6_counterexample :
    dispatch noneHandlerState "message" (.str "private") (.dict [])
      = .error .typeError
  ∧ dispatch noneHandlerState "message" (.str "private") (.dict [])
      ≠ .ok (.str "") := by
  constructor
  · rfl
  · intro h
    rw [show dispatch noneHandlerState "message" (.str "private") (.dict [])
          = .error .typeError from rfl] at h
    exact Except.noConfusion h

/-- C6 (amended): a selected handler's result on which the `'pass'`
membership test is defined and negative — a mapping without the key, or
e.g. an empty string — terminates dispatch at that group with that value
as the response (an empty value yields an empty response); but a result
of `None` (or any non-container) makes `'pass' in result` raise a
`TypeError`, failing the request rather than returning. -/
theorem C6_nonmapping_results (st : BotState) (pt : String) (key payload : PyVal) :
    (∀ (g : Int) (gs : List Int) (h : Handler),
        st.groups = g :: gs →
        lookupHandler st g pt key = some h →
        containsPass (h payload) = some false →
        dispatch st pt key payload = .ok (h payload))
  ∧ (∀ (g : Int) (gs : List Int) (h : Handler),
        st.groups = g :: gs →
        lookupHandler st g pt key = some h →
        h payload = .none →
        dispatch st pt key payload = .error .typeError) := by
  constructor
  · intro g gs h hgroups hsel hstop
    unfold dispatch
    rw [hgroups]
    simpa using dispatchLoop_stops st pt key payload [] g gs h (by simp) hsel hstop
  · intro g gs h hgroups hsel hres
    unfold dispatch
    rw [hgroups]
    exact dispatchLoop_raises st pt key payload g gs h hsel (by rw [hres]; rfl)

/-- C6, witness: through `C6_nonmapping_results`, a handler returning the
empty dict terminates dispatch with that empty mapping, while a handler
returning `None` raises. -/
theorem C6_witness :
    dispatch emptyDictHandlerState "message" (.str "private")
        (.dict [("m", .int 1)]) = .ok (.dict [])
  ∧ dispatch noneHandlerState "message" (.str "private")
        (.dict [("m", .int 1)]) = .error .typeError :=
  ⟨(C6_nonmapping_results emptyDictHandlerState "message" (.str "private")
      (.dict [("m", .int 1)])).1 0 [] (fun _ => .dict []) rfl rfl rfl,
   (C6_nonmapping_results noneHandlerState "message" (.str "private")
      (.dict [("m", .int 1)])).2 0 [] (fun _ => .none) rfl rfl rfl⟩

/-! ## Claim C3: proxy attribute chaining -/

theorem append_slash_ne_empty (u a : String) : (u ++ "/" ++ a) ≠ "" := by
  rw [string_ne_empty_iff]
  simp [String.data_append]

theorem getattrClient_truthy (u : String) (tok : Option String) (a : String)
    (hu : u ≠ "") (ha : a ≠ "") (hslash : '/' ∉ a.data) :
    getattrClient ⟨some u, tok⟩ a = some ⟨some (u ++ "/" ++ a), tok⟩ := by
  show (if u ≠ "" then some (initClient (some (u ++ "/" ++ a)) tok)
        else Option.none) = _
  rw [if_pos hu]
  show some (ApiClient.mk
      (if u ++ "/" ++ a ≠ "" then some (rstripSlash (u ++ "/" ++ a))
       else Option.none) tok) = _
  rw [if_pos (append_slash_ne_empty u a),
    rstripSlash_append_nonslash u a ha hslash]

theorem chainClient_joinPath (tok : Option String) (as' : List String) :
    ∀ u : String, u ≠ "" → (∀ a ∈ as', a ≠ "" ∧ '/' ∉ a.data) →
      chainClient ⟨some u, tok⟩ as' = some ⟨some (joinPath u as'), tok⟩ := by
  induction as' with
  | nil =>
      intro u _ _
      rfl
  | cons a rest ih =>
      intro u hu hall
      obtain ⟨ha, hs⟩ := hall a (List.mem_cons_self a rest)
      show (match getattrClient ⟨some u, tok⟩ a with
            | some c' => chainClient c' rest
            | Option.none => Option.none) = _
      rw [getattrClient_truthy u tok a hu ha hs]
      exact ih (u ++ "/" ++ a) (append_slash_ne_empty u a)
        (fun x hx => hall x (List.mem_cons_of_mem _ hx))

/-- C3 (amended): on a proxy node with a truthy URL (non-absent *and
nonempty* — the code tests `if self._url:`), accessing any attribute
name (nonempty, no `'/'`) yields a new node whose URL is the parent's
URL plus `'/'` plus the name, with the same access token; on a node with
an absent URL, attribute access returns nothing; consequently a chain
`a₁…aₙ` from root `r` posts to `r + '/a₁/…/aₙ'`. -/
theorem C3_proxy_attribute_chain :
    (∀ (u : String) (tok : Option String) (a : String),
        u ≠ "" → a ≠ "" → '/' ∉ a.data →
        getattrClient ⟨some u, tok⟩ a = some ⟨some (u ++ "/" ++ a), tok⟩)
  ∧ (∀ (tok : Option String) (a : String),
        getattrClient ⟨Option.none, tok⟩ a = Option.none)
  ∧ (∀ (u : String) (tok : Option String) (as' : List String)
        (kwargs : List (String × PyVal)),
        u ≠ "" → (∀ a ∈ as', a ≠ "" ∧ '/' ∉ a.data) →
        (chainClient ⟨some u, tok⟩ as').map (fun c => (callRequest c kwargs).url)
          = some (some (joinPath u as'))) := by
  refine ⟨getattrClient_truthy, ?_, ?_⟩
  · intro tok a
    rfl
  · intro u tok as' kwargs hu hall
    rw [chainClient_joinPath tok as' u hu hall]
    rfl

/-- C3, counterexample: the node built from root `"/"` has the non-absent
URL `""` (so it is "configured" in the claim's sense), yet attribute
access on it returns nothing, because the code tests truthiness
(`if self._url:`) and the empty string is falsy. -/
theorem C3_counterexample :
    (initClient (some "/") Option.none).url = some ""
  ∧ getattrClient (initClient (some "/") Option.none) "send_msg"
      = Option.none := by
  constructor
  · decide
  · decide

/-- C3, witness: the chain `client.send_group_msg(group_id=1,
message='hi')` from root `"http://host/api"` posts to
`"http://host/api/send_group_msg"`, through `C3_proxy_attribute_chain`. -/
theorem C3_witness :
    (chainClient ⟨some "http://host/api", Option.none⟩ ["send_group_msg"]).map
        (fun c => (callRequest c
          [("group_id", PyVal.int 1), ("message", PyVal.str "hi")]).url)
      = some (some "http://host/api/send_group_msg") := by
  have h := C3_proxy_attribute_chain.2.2 "http://host/api" Option.none
    ["send_group_msg"] [("group_id", PyVal.int 1), ("message", PyVal.str "hi")]
    (by decide) (by decide)
  simpa using h

/-! ## Claim C10: trailing slashes at construction -/

/-- C10, counterexample: for the root URL `u = ""`, the proxy built from
`u ++ "/"` differs from the proxy built from `u`: the former has the
(falsy but non-absent) URL `""`, the latter the absent URL `None`. -/
theorem C10_counterexample :
    initClient (some ("" ++ "/")) Option.none
      ≠ initClient (some "") Option.none := by
  decide

/-- C10 (amended): for every *nonempty* root URL `u` and every token, a
proxy constructed from `u` followed by one or more trailing `'/'`
characters equals the proxy constructed from `u` — trailing slashes are
stripped at construction — hence every descendant produced by the same
attribute chain coincides in both. -/
theorem C10_trailing_slash (u : String) (tok : Option String) (k : Nat)
    (hu : u ≠ "") :
    initClient (some (u ++ String.mk (List.replicate (k + 1) '/'))) tok
      = initClient (some u) tok := by
  have hdata : (u ++ String.mk (List.replicate (k + 1) '/')).data
      = u.data ++ List.replicate (k + 1) '/' := by
    simp [String.data_append]
  have hne : u ++ String.mk (List.replicate (k + 1) '/') ≠ "" := by
    rw [string_ne_empty_iff, hdata]
    simp
  have hstrip : rstripSlash (u ++ String.mk (List.replicate (k + 1) '/'))
      = rstripSlash u := by
    unfold rstripSlash
    rw [hdata, rstripSlashChars_append_replicate]
  show ApiClient.mk
      (if u ++ String.mk (List.replicate (k + 1) '/') ≠ ""
       then some (rstripSlash (u ++ String.mk (List.replicate (k + 1) '/')))
       else Option.none) tok
    = ApiClient.mk (if u ≠ "" then some (rstripSlash u) else Option.none) tok
  rw [if_pos hne, if_pos hu, hstrip]

/-- C10, witness: `initClient` on `"http://host/api" ++ "/"` equals
`initClient` on `"http://host/api"`, through `C10_trailing_slash`. -/
theorem C10_witness :
    initClient (some ("http://host/api" ++ String.mk (List.replicate 1 '/')))
        Option.none
      = initClient (some "http://host/api") Option.none :=
  C10_trailing_slash "http://host/api" Option.none 0 (by decide)
